import Mathlib

/-!
Verification development for the breakout-trading core of the
EcoparkInvest repository: a shallow embedding of the backtest simulator,
grid optimizer and resilient candle fetcher found in
`breakout_backtests.py` and `breakout_bot.py`.

Prices, volumes and capital are modelled as exact rationals; pandas
rolling values that are NaN in the first `lookback` rows are modelled as
`Option` values (a comparison against a missing value is false, matching
NaN comparison semantics).  Bars are indexed by position; by the Bar
Store invariant (strictly increasing timestamps) index order coincides
with time order.
-/

-- Batteries marks the `Rat` field operations irreducible; restoring the
-- default reducibility lets concrete runs of the simulator be settled by
-- kernel reduction (`decide`).
set_option allowUnsafeReducibility true

attribute [semireducible] Rat.add Rat.mul Rat.inv Rat.sub Rat.ofScientific

namespace Ecopark

/-- One OHLCV bar as consumed by the strategy: the `high`, `close` and
`vol` columns built by `fetch_candles`. -/
structure Bar where
  high  : ℚ
  close : ℚ
  vol   : ℚ
  deriving DecidableEq

/-- A strategy parameter set: one grid cell `(lookback, delta, tp, sl)`. -/
structure Params where
  lookback : Nat
  delta : ℚ
  tp : ℚ
  sl : ℚ
  deriving DecidableEq

/-- `CAPITAL_START = 50_000`. -/
def CAPITAL_START : ℚ := 50000

/-- `COMMISSION = 0.0004`. -/
def COMMISSION : ℚ := 4 / 10000

/-- `RISK_PCT = 0.02`. -/
def RISK_PCT : ℚ := 2 / 100

/-- `TP_GRID = [0.005, 0.01, 0.015]`. -/
def TP_GRID : List ℚ := [5 / 1000, 1 / 100, 15 / 1000]

/-- `SL_GRID = [0.003, 0.005, 0.01]`. -/
def SL_GRID : List ℚ := [3 / 1000, 5 / 1000, 1 / 100]

/-- `DELTA_GRID = [0.001, 0.002, 0.003]`. -/
def DELTA_GRID : List ℚ := [1 / 1000, 2 / 1000, 3 / 1000]

/-- `LOOKBACK_GRID = [10, 20, 30]`. -/
def LOOKBACK_GRID : List Nat := [10, 20, 30]

/-- Default bar used for out-of-range `getD` reads (never hit on the
indices the simulator touches). -/
def dBar : Bar := ⟨0, 0, 0⟩

/-- The window of column values at indices `t-w .. t-1` (the lookback
window ending at the prior bar). -/
def windowSlice (xs : List ℚ) (w t : Nat) : List ℚ :=
  (List.range w).map fun i => xs.getD (t - w + i) 0

/-- Maximum of a list, `none` on the empty list. -/
def listMax : List ℚ → Option ℚ
  | [] => none
  | x :: xs => some (xs.foldl max x)

/-- `series.rolling(w).max().shift(1)` read at row `t`: defined iff the
window `t-w .. t-1` is fully inside the series (pandas yields NaN
otherwise), and then equal to the window maximum. -/
def rollingMaxShift (xs : List ℚ) (w t : Nat) : Option ℚ :=
  if 0 < w ∧ w ≤ t then listMax (windowSlice xs w t) else none

/-- `series.rolling(w).mean().shift(1)` read at row `t`. -/
def rollingMeanShift (xs : List ℚ) (w t : Nat) : Option ℚ :=
  if 0 < w ∧ w ≤ t then some ((windowSlice xs w t).sum / w) else none

/-- `df["high"].rolling(lookback).max().shift(1)` at row `t`
(breakout_backtests.py line 90 / breakout_bot.py lines 233 and 326). -/
def hiLvlAt (df : List Bar) (w t : Nat) : Option ℚ :=
  rollingMaxShift (df.map Bar.high) w t

/-- `df["vol"].rolling(lookback).mean().shift(1)` at row `t`
(breakout_backtests.py line 91 / breakout_bot.py lines 234 and 327). -/
def volMaAt (df : List Bar) (w t : Nat) : Option ℚ :=
  rollingMeanShift (df.map Bar.vol) w t

/-- One row of the frame the simulator iterates: the bar's close and
volume plus the two shifted rolling columns. -/
structure Row where
  close : ℚ
  vol : ℚ
  hiLvl : Option ℚ
  volMa : Option ℚ
  deriving DecidableEq

/-- Default row for out-of-range `getD` reads. -/
def dRow : Row := ⟨0, 0, none, none⟩

/-- The frame with `hi_lvl` and `vol_ma` columns added, as built at the
top of `backtest` on a copy of the caller's frame. -/
def mkRows (df : List Bar) (w : Nat) : List Row :=
  (List.range df.length).map fun t =>
    { close := (df.getD t dBar).close
      vol := (df.getD t dBar).vol
      hiLvl := hiLvlAt df w t
      volMa := volMaAt df w t }

/-- The simulator's mutable loop state: capital, open position
(`pos_qty`, `entry_px`, `entry_val`) and the trade counters. -/
structure BTState where
  cap : ℚ
  posQty : ℤ
  entryPx : ℚ
  entryVal : ℚ
  trades : Nat
  wins : Nat
  losses : Nat
  deriving DecidableEq

/-- Loop state before the first bar. -/
def initState : BTState := ⟨CAPITAL_START, 0, 0, 0, 0, 0, 0⟩

/-- The exit check run first on each bar: close the position when
`change >= tp or change <= -sl`, realizing
`(close*qty - entry_val) - close*qty*COMMISSION`. -/
def exitStep (p : Params) (s : BTState) (r : Row) : BTState :=
  if s.posQty ≠ 0 then
    let change := r.close / s.entryPx - 1
    if p.tp ≤ change ∨ change ≤ -p.sl then
      { s with
        cap := s.cap + ((r.close * s.posQty - s.entryVal) - r.close * s.posQty * COMMISSION)
        wins := s.wins + (if p.tp ≤ change then 1 else 0)
        losses := s.losses + (if change ≤ -p.sl then 1 else 0)
        trades := s.trades + 1
        posQty := 0 }
    else s
  else s

/-- The breakout entry condition
`close > hi_lvl and (close - hi_lvl)/hi_lvl >= delta and vol > vol_ma`;
comparisons against a missing (NaN) rolling value are false. -/
def breakoutSignal (p : Params) (r : Row) : Bool :=
  match r.hiLvl, r.volMa with
  | some hi, some vm =>
    decide (hi < r.close) && decide (p.delta ≤ (r.close - hi) / hi) && decide (vm < r.vol)
  | _, _ => false

/-- `qty = min(floor(cap*RISK_PCT/(close*sl)), floor(cap/close))`. -/
def entryQty (s : BTState) (p : Params) (r : Row) : ℤ :=
  min ⌊s.cap * RISK_PCT / (r.close * p.sl)⌋ ⌊s.cap / r.close⌋

/-- The entry check run second on each bar: open a position iff flat,
the breakout signal fires and the computed quantity is positive; the
entry commission is deducted immediately. -/
def entryStep (p : Params) (s : BTState) (r : Row) : BTState :=
  if s.posQty = 0 ∧ breakoutSignal p r then
    let qty := entryQty s p r
    if 0 < qty then
      { s with
        posQty := qty
        entryPx := r.close
        entryVal := qty * r.close
        cap := s.cap - qty * r.close * COMMISSION }
    else s
  else s

/-- One loop iteration of `backtest`: the exit check, then the entry
check, in that order. -/
def step (p : Params) (s : BTState) (r : Row) : BTState :=
  entryStep p (exitStep p s r) r

/-- The whole bar-by-bar replay of `backtest`. -/
def backtestRun (df : List Bar) (p : Params) : BTState :=
  (mkRows df p.lookback).foldl (step p) initState

/-- The tuple returned by `backtest`: return percentage and
trade/win/loss counts. -/
structure BTResult where
  ret : ℚ
  trades : Nat
  wins : Nat
  losses : Nat
  deriving DecidableEq

/-- `backtest(df, lookback, delta, tp, sl)`
(breakout_backtests.py lines 88-124, breakout_bot.py lines 231-255). -/
def backtest (df : List Bar) (p : Params) : BTResult :=
  let s := backtestRun df p
  ⟨(s.cap / CAPITAL_START - 1) * 100, s.trades, s.wins, s.losses⟩

/-- The grid in its defined iteration order: lookback outermost, then
delta, then tp, then sl innermost. -/
def gridCombos : List Params :=
  LOOKBACK_GRID.flatMap fun lb =>
    DELTA_GRID.flatMap fun d =>
      TP_GRID.flatMap fun tp =>
        SL_GRID.map fun sl => ⟨lb, d, tp, sl⟩

/-- One update of the best-so-far cell in `main`'s grid loop
(breakout_backtests.py lines 171-174): the incumbent, starting from
`-inf` (modelled as `none`), is replaced only on a strictly greater
return. -/
def bestStep (score : Params → ℚ) (best : Option (Params × ℚ)) (p : Params) :
    Option (Params × ℚ) :=
  match best with
  | none => some (p, score p)
  | some (bp, br) => if br < score p then some (p, score p) else some (bp, br)

/-- The grid loop of `main` in breakout_backtests.py, reduced to the
selection of the best cell and its return. -/
def selectBest (score : Params → ℚ) (combos : List Params) : Option (Params × ℚ) :=
  combos.foldl (bestStep score) none

/-- The best cell retained by `main` for a frame. -/
def optimizeMain (df : List Bar) : Option (Params × ℚ) :=
  selectBest (fun p => (backtest df p).ret) gridCombos

/-- The `best` dict of `optimize_params` in breakout_bot.py. -/
structure BestRec where
  ret : ℚ
  lookback : Nat
  delta : ℚ
  tp : ℚ
  sl : ℚ
  trades : Nat
  wins : Nat
  losses : Nat
  deriving DecidableEq

/-- One `best.update(...)` step of `optimize_params` in breakout_bot.py:
the incumbent record is replaced only on a strictly greater return. -/
def optStep (df : List Bar) (best : BestRec) (p : Params) : BestRec :=
  let r := backtest df p
  if best.ret < r.ret then
    ⟨r.ret, p.lookback, p.delta, p.tp, p.sl, r.trades, r.wins, r.losses⟩
  else best

/-- `optimize_params(df)` (breakout_bot.py lines 257-266): the sentinel
record starts at `ret = -1e9` and a cell replaces it only on a strictly
greater return; the unset fields of the sentinel are modelled as zeros. -/
def optimizeParams (df : List Bar) : BestRec :=
  gridCombos.foldl (optStep df) ⟨-(10 ^ 9 : ℚ), 0, 0, 0, 0, 0, 0, 0⟩

/-- The record `optimize_params` installs when a cell displaces the
incumbent: the cell's return, parameters and trade counts. -/
def cellRec (df : List Bar) (p : Params) : BestRec :=
  ⟨(backtest df p).ret, p.lookback, p.delta, p.tp, p.sl,
    (backtest df p).trades, (backtest df p).wins, (backtest df p).losses⟩

/-- `backtest` as seen by its caller: the result together with the frame
the caller still holds afterwards.  The source copies the frame
(`df = df.copy()`) before adding the `hi_lvl`/`vol_ma` columns, so the
caller's frame is returned untouched. -/
def backtestFrame (df : List Bar) (p : Params) : BTResult × List Bar :=
  (backtest df p, df)

/-- One optimizer grid cell as the caller's loop runs it: score the
currently held frame, keep the frame the call hands back. -/
def gridCell (st : List BTResult × List Bar) (p : Params) : List BTResult × List Bar :=
  (st.1 ++ [(backtestFrame st.2 p).1], (backtestFrame st.2 p).2)

/-- The optimizer's grid loop threading the caller-visible frame through
every cell, collecting each cell's result. -/
def gridScores (df : List Bar) : List BTResult × List Bar :=
  gridCombos.foldl gridCell ([], df)

/-- `_process_candle` first writes the arrived candle into the frame
(`self.df.loc[ts] = ...`); the extended frame. -/
def liveFrame (df : List Bar) (c : Bar) : List Bar := df ++ [c]

/-- The `hi_lvl` the live bot reads after appending candle `c`:
`self.df["high"].rolling(lb).max().shift(1).iat[-1]`, i.e. the shifted
rolling column of the extended frame at its last row. -/
def liveHiLvl (df : List Bar) (c : Bar) (lb : Nat) : Option ℚ :=
  hiLvlAt (liveFrame df c) lb df.length

/-- The `vol_ma` the live bot reads after appending candle `c`. -/
def liveVolMa (df : List Bar) (c : Bar) (lb : Nat) : Option ℚ :=
  volMaAt (liveFrame df c) lb df.length

/-- The failure classes a candle fetch attempt can raise, as
distinguished by the gRPC status: `RESOURCE_EXHAUSTED` (throttled, with
the upstream `ratelimit_reset` wait and whether the metadata carrying it
is present), `UNAVAILABLE` (transient), or any other class. -/
inductive FetchFail where
  | throttled (reset : ℤ) (hasMeta : Bool)
  | unavailable
  | fatal
  deriving DecidableEq

/-- Outcome of a fetch call: the sleeps performed, and on failure the
class finally raised to the caller. -/
inductive FetchOutcome where
  | ok (sleeps : List ℚ)
  | raised (sleeps : List ℚ) (f : FetchFail)
  deriving DecidableEq

/-- Record one sleep in front of an outcome's sleep trace. -/
def consSleep (s : ℚ) : FetchOutcome → FetchOutcome
  | .ok ss => .ok (s :: ss)
  | .raised ss f => .raised (s :: ss) f

/-- The retry skeleton shared by `safe_gen` (breakout_backtests.py lines
57-72) and `_gen` (breakout_bot.py lines 179-196), parametrised by the
throttle-sleep and the transient-sleep formulas in which the two differ.
A call is described by the list of failures of its successive attempts,
each paired with that attempt's jitter sample from `[0,1)`; an empty
remainder means the next attempt succeeds. -/
def runFetch (tSleep : ℤ → Bool → ℚ) (uSleep : ℚ → ℚ → ℚ) :
    ℚ → Nat → List (FetchFail × ℚ) → FetchOutcome
  | _, _, [] => .ok []
  | backoff, left, (.throttled w m, _) :: rest =>
    consSleep (tSleep w m) (runFetch tSleep uSleep backoff left rest)
  | backoff, left, (.unavailable, r) :: rest =>
    if left ≠ 0 then
      consSleep (uSleep backoff r) (runFetch tSleep uSleep (backoff * 2) (left - 1) rest)
    else .raised [] .unavailable
  | _, _, (.fatal, _) :: _ => .raised [] .fatal

/-- Bulk fetcher throttle sleep: `max(int(meta.ratelimit_reset), 1) + 1`. -/
def btThrottleSleep (w : ℤ) (_ : Bool) : ℚ := ((max w 1 + 1 : ℤ) : ℚ)

/-- Bulk fetcher transient sleep: `backoff + random.random() * 0.5`. -/
def btUnavailSleep (backoff r : ℚ) : ℚ := backoff + r * (1 / 2)

/-- Live-bot throttle sleep: `reset + 1` with
`reset = int(e.metadata.ratelimit_reset) if hasattr(e, "metadata") else 1`. -/
def botThrottleSleep (w : ℤ) (m : Bool) : ℚ := (((if m then w else 1) + 1 : ℤ) : ℚ)

/-- Live-bot transient sleep: `backoff + random.random()`. -/
def botUnavailSleep (backoff r : ℚ) : ℚ := backoff + r

/-- `safe_gen` in `fetch_candles` of breakout_backtests.py, started with
`backoff, left = 1, 5`. -/
def btFetch : ℚ → Nat → List (FetchFail × ℚ) → FetchOutcome :=
  runFetch btThrottleSleep btUnavailSleep

/-- `_gen` in `fetch_candles` of breakout_bot.py, started with
`backoff, retries = 1, 5`. -/
def botFetch : ℚ → Nat → List (FetchFail × ℚ) → FetchOutcome :=
  runFetch botThrottleSleep botUnavailSleep

/-- Did the call raise to its caller? -/
def FetchOutcome.isErr : FetchOutcome → Bool
  | .ok _ => false
  | .raised _ _ => true

/-- Is a failure the transient (`UNAVAILABLE`) class? -/
def isUnavail : FetchFail → Bool
  | .unavailable => true
  | _ => false

/-- Is a failure the immediately-propagated class? -/
def isFatal : FetchFail → Bool
  | .fatal => true
  | _ => false

/-- Is a failure the throttled (`RESOURCE_EXHAUSTED`) class? -/
def isThrottled : FetchFail → Bool
  | .throttled _ _ => true
  | _ => false

/-- Number of transient failures among a call's attempts. -/
def countU (l : List (FetchFail × ℚ)) : Nat := l.countP fun x => isUnavail x.1

/-- Example frame whose second bar has a high strictly above every close
in sight: distinguishes a high-based from a close-based breakout level. -/
def c1df : List Bar := [⟨10, 5, 1⟩, ⟨7, 6, 1⟩, ⟨6, 6, 1⟩]

/-- A Bar Store of five bars: fewer than every lookback in the grid, in
particular fewer than the largest (30). -/
def c2df : List Bar :=
  [⟨100, 100, 10⟩, ⟨101, 101, 11⟩, ⟨102, 102, 12⟩, ⟨103, 103, 13⟩, ⟨104, 104, 14⟩]

/-- Parameter set for the same-bar re-entry example. -/
def c3p : Params := ⟨1, 1 / 100, 2 / 100, 1 / 100⟩

/-- First two bars of the re-entry example: a breakout at the second bar
opens a position at close 101. -/
def c3df2 : List Bar := [⟨100, 100, 10⟩, ⟨101, 101, 20⟩]

/-- Full re-entry example: the third bar's close 103.03 both hits the
take-profit from entry 101 and breaks out above the prior high 101 on
elevated volume. -/
def c3df : List Bar := [⟨100, 100, 10⟩, ⟨101, 101, 20⟩, ⟨104, 10303 / 100, 50⟩]

/-- The simulator's row for the third bar of `c3df`. -/
def c3row2 : Row := (mkRows c3df 1).getD 2 dRow

/-- Spec scenario parameters: tp 2%, sl 1%. -/
def scnP : Params := ⟨10, 1 / 1000, 2 / 100, 1 / 100⟩

/-- Spec scenario state: an open position of 1 share entered at 100. -/
def scnS : BTState := ⟨50000, 1, 100, 100, 0, 0, 0⟩

/-- Spec scenario row: next close 98. -/
def scnR : Row := ⟨98, 0, none, none⟩

/-- Re-entry witness parameters: lookback 1, delta 1%, tp 2%, sl 1%. -/
def rentP : Params := ⟨1, 1 / 100, 2 / 100, 1 / 100⟩

/-- Re-entry witness state: an open position of 1 share entered at 100. -/
def rentS : BTState := ⟨50000, 1, 100, 100, 0, 0, 0⟩

/-- Re-entry witness row: close 103 hits the take profit and breaks out
above the prior high 101 on elevated volume. -/
def rentR : Row := ⟨103, 50, some 101, some 20⟩

/-- Skip-entry witness state: capital 1 makes the computed quantity 0. -/
def tinyS : BTState := ⟨1, 0, 0, 0, 0, 0, 0⟩

/-- Skip-entry witness row: a live breakout signal. -/
def tinyR : Row := ⟨101, 50, some 100, some 20⟩

end Ecopark

/-!  ## Theorems  -/

namespace Ecopark

/-- Auxiliary: the grid loop threading the caller-visible frame. -/
lemma gridScores_go (l : List Params) (acc : List BTResult) (df : List Bar) :
    l.foldl gridCell (acc, df) = (acc ++ l.map fun p => backtest df p, df) := by
  induction l generalizing acc with
  | nil => simp
  | cons p rest ih =>
    rw [List.foldl_cons]
    show rest.foldl gridCell (acc ++ [backtest df p], df) = _
    rw [ih]
    simp

/-- C10: the Backtest Simulator never mutates the Bar Store it is given
(the source copies the frame before adding columns): the caller's frame
after `backtest` is the frame it passed, and every grid cell of the
optimizer therefore scores the identical, unmodified data. -/
theorem backtest_frame_unchanged (df : List Bar) :
    (∀ p, (backtestFrame df p).2 = df) ∧
    (gridScores df).2 = df ∧
    (gridScores df).1 = gridCombos.map fun p => backtest df p := by
  refine ⟨fun p => rfl, ?_, ?_⟩ <;>
    simp [gridScores, gridScores_go gridCombos [] df]

/-- C1 counterexample: the breakout level the simulator consults at the
third bar of `c1df` with lookback 2 is the rolling maximum of the *high*
column (10), not of the *close* column (6). -/
theorem hiLvl_not_rolling_close_max :
    ((mkRows c1df 2).getD 2 dRow).hiLvl = some 10 ∧
    rollingMaxShift (c1df.map Bar.close) 2 2 = some 6 ∧
    ((mkRows c1df 2).getD 2 dRow).hiLvl ≠ rollingMaxShift (c1df.map Bar.close) 2 2 := by
  decide

set_option maxRecDepth 4000 in
/-- C2 counterexample: on a five-bar store (fewer bars than the largest
grid lookback, 30) the Grid Optimizer does not fail: `optimize_params`
returns the first grid cell with 0% return and zero trades, and `main`'s
grid loop likewise selects a best cell. -/
theorem optimizer_returns_result_on_short_store :
    c2df.length < 30 ∧
    optimizeParams c2df = ⟨0, 10, 1 / 1000, 5 / 1000, 3 / 1000, 0, 0, 0⟩ ∧
    optimizeMain c2df = some (⟨10, 1 / 1000, 5 / 1000, 3 / 1000⟩, 0) := by
  decide

/-- C3 counterexample: on `c3df` an exit fires at the third bar (the
position of 495 opened at the second bar is closed, trades goes 0 to 1)
and the entry check then opens a new position of 494 on that very same
bar. -/
theorem same_bar_reentry_after_exit :
    (backtestRun c3df2 c3p).posQty = 495 ∧
    (backtestRun c3df2 c3p).trades = 0 ∧
    backtestRun c3df c3p = step c3p (backtestRun c3df2 c3p) c3row2 ∧
    (exitStep c3p (backtestRun c3df2 c3p) c3row2).posQty = 0 ∧
    (exitStep c3p (backtestRun c3df2 c3p) c3row2).trades = 1 ∧
    (backtestRun c3df c3p).posQty = 494 ∧
    (backtestRun c3df c3p).trades = 1 := by
  decide

/-- C4 counterexample: with jitter sample 0.9 the two fetchers sleep
differently on the first transient failure — the bulk fetcher sleeps
1 + 0.9*0.5, the incremental one 1 + 0.9, which exceeds backoff + 0.5 —
so the retry policies are not identical. -/
theorem fetch_retry_policies_differ :
    btFetch 1 5 [(.unavailable, 9 / 10)] = .ok [1 + 9 / 20] ∧
    botFetch 1 5 [(.unavailable, 9 / 10)] = .ok [1 + 9 / 10] ∧
    btFetch 1 5 [(.unavailable, 9 / 10)] ≠ botFetch 1 5 [(.unavailable, 9 / 10)] ∧
    ¬((1 + 9 / 10 : ℚ) ≤ 1 + 1 / 2) := by
  decide

/-- C4 amended: both fetchers share the retry skeleton — backoff starts
at 1, doubles on each transient attempt, and the sixth consecutive
transient failure is raised after five retries — but the jitter added to
the backoff differs: the bulk fetcher adds `r * 0.5`, the incremental
fetcher the full `r`. -/
theorem fetch_retry_backoff_schedules (r1 r2 r3 r4 r5 r6 : ℚ) :
    btFetch 1 5
        [(.unavailable, r1), (.unavailable, r2), (.unavailable, r3),
          (.unavailable, r4), (.unavailable, r5), (.unavailable, r6)] =
      .raised [1 + r1 * (1 / 2), 2 + r2 * (1 / 2), 4 + r3 * (1 / 2),
        8 + r4 * (1 / 2), 16 + r5 * (1 / 2)] .unavailable ∧
    botFetch 1 5
        [(.unavailable, r1), (.unavailable, r2), (.unavailable, r3),
          (.unavailable, r4), (.unavailable, r5), (.unavailable, r6)] =
      .raised [1 + r1, 2 + r2, 4 + r3, 8 + r4, 16 + r5] .unavailable := by
  constructor <;>
    · simp only [btFetch, botFetch, runFetch, consSleep, btUnavailSleep, botUnavailSleep]
      norm_num

/-- C5 counterexample: a throttled failure whose upstream-requested wait
is 0 makes the bulk fetcher sleep `max(0,1) + 1 = 2` time units, not the
claimed `wait + 1 = 1`. -/
theorem throttle_sleep_not_wait_plus_one :
    btFetch 1 5 [(.throttled 0 true, 0)] = .ok [2] ∧ (2 : ℚ) ≠ 0 + 1 := by
  decide

/-- Auxiliary: the seed is below a left fold of `max`. -/
lemma le_foldl_max (l : List ℚ) (a : ℚ) : a ≤ l.foldl max a := by
  induction l generalizing a with
  | nil => exact le_refl a
  | cons x xs ih => exact le_trans (le_max_left a x) (ih (max a x))

/-- Auxiliary: every element is below a left fold of `max`. -/
lemma mem_le_foldl_max (l : List ℚ) (a : ℚ) : ∀ x ∈ l, x ≤ l.foldl max a := by
  induction l generalizing a with
  | nil => intro x hx; cases hx
  | cons y ys ih =>
    intro x hx
    rcases List.mem_cons.mp hx with h | h
    · subst h
      exact le_trans (le_max_right a x) (le_foldl_max ys (max a x))
    · exact ih (max a y) x h

/-- Auxiliary: a left fold of `max` is the seed or one of the elements. -/
lemma foldl_max_mem (l : List ℚ) (a : ℚ) : l.foldl max a = a ∨ l.foldl max a ∈ l := by
  induction l generalizing a with
  | nil => exact Or.inl rfl
  | cons y ys ih =>
    rw [List.foldl_cons]
    rcases ih (max a y) with h | h
    · rcases max_cases a y with ⟨he, _⟩ | ⟨he, _⟩
      · exact Or.inl (h.trans he)
      · exact Or.inr (by rw [h, he]; exact List.mem_cons_self y ys)
    · exact Or.inr (List.mem_cons_of_mem y h)

/-- Auxiliary: `listMax` returns an attained upper bound. -/
lemma listMax_spec {l : List ℚ} {m : ℚ} (h : listMax l = some m) :
    m ∈ l ∧ ∀ x ∈ l, x ≤ m := by
  cases l with
  | nil => simp [listMax] at h
  | cons x xs =>
    simp only [listMax, Option.some.injEq] at h
    subst h
    refine ⟨?_, ?_⟩
    · rcases foldl_max_mem xs x with h | h
      · rw [h]; exact List.mem_cons_self x xs
      · exact List.mem_cons_of_mem x h
    · intro y hy
      rcases List.mem_cons.mp hy with h | h
      · rw [h]; exact le_foldl_max xs x
      · exact mem_le_foldl_max xs x y h

/-- Auxiliary: `listMax` of a nonempty list exists. -/
lemma listMax_isSome {l : List ℚ} (h : l ≠ []) : ∃ m, listMax l = some m := by
  cases l with
  | nil => exact absurd rfl h
  | cons x xs => exact ⟨xs.foldl max x, rfl⟩

/-- Auxiliary: reading the high column through `getD`. -/
lemma getD_map_high (df : List Bar) (j : Nat) :
    (df.map Bar.high).getD j 0 = (df.getD j dBar).high := by
  by_cases hj : j < df.length
  · rw [List.getD_eq_getElem _ _ (by simpa using hj), List.getD_eq_getElem _ _ hj,
      List.getElem_map]
  · rw [List.getD_eq_default _ _ (by simpa using Nat.le_of_not_lt hj),
      List.getD_eq_default _ _ (Nat.le_of_not_lt hj)]
    rfl

/-- Auxiliary: reading the volume column through `getD`. -/
lemma getD_map_vol (df : List Bar) (j : Nat) :
    (df.map Bar.vol).getD j 0 = (df.getD j dBar).vol := by
  by_cases hj : j < df.length
  · rw [List.getD_eq_getElem _ _ (by simpa using hj), List.getD_eq_getElem _ _ hj,
      List.getElem_map]
  · rw [List.getD_eq_default _ _ (by simpa using Nat.le_of_not_lt hj),
      List.getD_eq_default _ _ (Nat.le_of_not_lt hj)]
    rfl

/-- Auxiliary: the simulator's row at a valid index. -/
lemma mkRows_getD (df : List Bar) (w t : Nat) (ht : t < df.length) :
    (mkRows df w).getD t dRow =
      ⟨(df.getD t dBar).close, (df.getD t dBar).vol, hiLvlAt df w t, volMaAt df w t⟩ := by
  have h1 : t < (mkRows df w).length := by simp [mkRows, ht]
  rw [List.getD_eq_getElem _ _ h1]
  simp [mkRows]

/-- Auxiliary: the window slice of the high column only reads bars at
indices below `t`. -/
lemma windowSlice_high_congr {df dg : List Bar} {w t : Nat} (hwt : w ≤ t)
    (h : ∀ j, j < t → df.getD j dBar = dg.getD j dBar) :
    windowSlice (df.map Bar.high) w t = windowSlice (dg.map Bar.high) w t := by
  unfold windowSlice
  refine List.map_congr_left fun i hi => ?_
  have hi2 : i < w := List.mem_range.mp hi
  rw [getD_map_high, getD_map_high, h (t - w + i) (by omega)]

/-- Auxiliary: the window slice of the volume column only reads bars at
indices below `t`. -/
lemma windowSlice_vol_congr {df dg : List Bar} {w t : Nat} (hwt : w ≤ t)
    (h : ∀ j, j < t → df.getD j dBar = dg.getD j dBar) :
    windowSlice (df.map Bar.vol) w t = windowSlice (dg.map Bar.vol) w t := by
  unfold windowSlice
  refine List.map_congr_left fun i hi => ?_
  have hi2 : i < w := List.mem_range.mp hi
  rw [getD_map_vol, getD_map_vol, h (t - w + i) (by omega)]

/-- Auxiliary: the levels at row `t` are determined by bars before `t`. -/
lemma levels_congr (df dg : List Bar) (w t : Nat)
    (h : ∀ j, j < t → df.getD j dBar = dg.getD j dBar) :
    hiLvlAt df w t = hiLvlAt dg w t ∧ volMaAt df w t = volMaAt dg w t := by
  constructor
  · unfold hiLvlAt rollingMaxShift
    by_cases hc : 0 < w ∧ w ≤ t
    · rw [if_pos hc, if_pos hc, windowSlice_high_congr hc.2 h]
    · rw [if_neg hc, if_neg hc]
  · unfold volMaAt rollingMeanShift
    by_cases hc : 0 < w ∧ w ≤ t
    · rw [if_pos hc, if_pos hc, windowSlice_vol_congr hc.2 h]
    · rw [if_neg hc, if_neg hc]

/-- C1 amended: the breakout level at bar `t` is the rolling maximum of
the *high* column over the window `t-w .. t-1` of prior bars (an attained
upper bound of those highs), and `vol_ma` is the rolling mean of volume
over the same window. -/
theorem hiLvl_volMa_prior_window (df : List Bar) (w t : Nat)
    (hw : 0 < w) (hwt : w ≤ t) (ht : t < df.length) :
    ∃ m, ((mkRows df w).getD t dRow).hiLvl = some m ∧
      (∃ j, t - w ≤ j ∧ j < t ∧ (df.getD j dBar).high = m) ∧
      (∀ j, t - w ≤ j → j < t → (df.getD j dBar).high ≤ m) ∧
      ((mkRows df w).getD t dRow).volMa =
        some ((((List.range w).map fun i => (df.getD (t - w + i) dBar).vol).sum) / w) := by
  rw [mkRows_getD df w t ht]
  have hne : windowSlice (df.map Bar.high) w t ≠ [] := by
    unfold windowSlice
    simp only [ne_eq, List.map_eq_nil_iff, List.range_eq_nil]
    omega
  obtain ⟨m, hm⟩ := listMax_isSome hne
  obtain ⟨hmem, hub⟩ := listMax_spec hm
  refine ⟨m, ?_, ?_, ?_, ?_⟩
  · show hiLvlAt df w t = some m
    unfold hiLvlAt rollingMaxShift
    rw [if_pos ⟨hw, hwt⟩]
    exact hm
  · obtain ⟨i, hi, hival⟩ := List.mem_map.mp hmem
    have hi2 : i < w := List.mem_range.mp hi
    refine ⟨t - w + i, by omega, by omega, ?_⟩
    rw [← getD_map_high]
    exact hival
  · intro j hj1 hj2
    have hx : (df.map Bar.high).getD j 0 ∈ windowSlice (df.map Bar.high) w t := by
      unfold windowSlice
      refine List.mem_map.mpr ⟨j - (t - w), List.mem_range.mpr (by omega), ?_⟩
      congr 1
      omega
    rw [← getD_map_high]
    exact hub _ hx
  · show volMaAt df w t = _
    unfold volMaAt rollingMeanShift
    rw [if_pos ⟨hw, hwt⟩]
    have hsl : windowSlice (df.map Bar.vol) w t =
        (List.range w).map fun i => (df.getD (t - w + i) dBar).vol := by
      unfold windowSlice
      exact List.map_congr_left fun i _ => getD_map_vol df (t - w + i)
    rw [hsl]

/-- C1 amended witness: the characterization at the third bar of `c1df`
with lookback 2. -/
theorem hiLvl_volMa_prior_window_witness :
    ∃ m, ((mkRows c1df 2).getD 2 dRow).hiLvl = some m ∧
      (∃ j, 2 - 2 ≤ j ∧ j < 2 ∧ (c1df.getD j dBar).high = m) ∧
      (∀ j, 2 - 2 ≤ j → j < 2 → (c1df.getD j dBar).high ≤ m) ∧
      ((mkRows c1df 2).getD 2 dRow).volMa =
        some ((((List.range 2).map fun i => (c1df.getD (2 - 2 + i) dBar).vol).sum) / 2) :=
  hiLvl_volMa_prior_window c1df 2 2 (by decide) (by decide) (by decide)

/-- C7: the `hi_lvl` and `vol_ma` consulted by the entry decision at bar
`t` are computed strictly from bars before `t`: two stores agreeing
before `t` yield the same levels at `t`, and in the live per-candle
evaluation the just-appended candle has no influence on the levels read
for it. -/
theorem levels_use_only_prior_bars :
    (∀ (df dg : List Bar) (w t : Nat),
      (∀ j, j < t → df.getD j dBar = dg.getD j dBar) →
      hiLvlAt df w t = hiLvlAt dg w t ∧ volMaAt df w t = volMaAt dg w t) ∧
    (∀ (df : List Bar) (c cp : Bar) (lb : Nat),
      liveHiLvl df c lb = liveHiLvl df cp lb ∧ liveVolMa df c lb = liveVolMa df cp lb) := by
  refine ⟨levels_congr, fun df c cp lb => ?_⟩
  refine levels_congr _ _ lb df.length fun j hj => ?_
  unfold liveFrame
  rw [List.getD_append _ _ _ _ hj, List.getD_append _ _ _ _ hj]

/-- C7 witness: two stores sharing their first bar but with different
second bars produce the same levels at index 1, and in the live variant
two different arriving candles produce the same levels. -/
theorem levels_use_only_prior_bars_witness :
    (hiLvlAt [⟨5, 5, 5⟩, ⟨9, 9, 9⟩] 1 1 = hiLvlAt [⟨5, 5, 5⟩, ⟨1, 2, 3⟩] 1 1 ∧
      volMaAt [⟨5, 5, 5⟩, ⟨9, 9, 9⟩] 1 1 = volMaAt [⟨5, 5, 5⟩, ⟨1, 2, 3⟩] 1 1) ∧
    (liveHiLvl [⟨5, 5, 5⟩] ⟨9, 9, 9⟩ 1 = liveHiLvl [⟨5, 5, 5⟩] ⟨1, 2, 3⟩ 1 ∧
      liveVolMa [⟨5, 5, 5⟩] ⟨9, 9, 9⟩ 1 = liveVolMa [⟨5, 5, 5⟩] ⟨1, 2, 3⟩ 1) :=
  ⟨levels_use_only_prior_bars.1 _ _ 1 1 (by decide),
    levels_use_only_prior_bars.2 [⟨5, 5, 5⟩] ⟨9, 9, 9⟩ ⟨1, 2, 3⟩ 1⟩

/-- Auxiliary: the exit action when a position is open and the exit
condition holds. -/
lemma exitStep_fires (p : Params) (s : BTState) (r : Row) (hpos : s.posQty ≠ 0)
    (hx : p.tp ≤ r.close / s.entryPx - 1 ∨ r.close / s.entryPx - 1 ≤ -p.sl) :
    exitStep p s r =
      { s with
        cap := s.cap + ((r.close * s.posQty - s.entryVal) - r.close * s.posQty * COMMISSION)
        wins := s.wins + (if p.tp ≤ r.close / s.entryPx - 1 then 1 else 0)
        losses := s.losses + (if r.close / s.entryPx - 1 ≤ -p.sl then 1 else 0)
        trades := s.trades + 1
        posQty := 0 } := by
  unfold exitStep
  rw [if_pos hpos]
  exact if_pos hx

/-- Auxiliary: the entry action when flat, the signal fires and the
computed quantity is positive. -/
lemma entryStep_fires (p : Params) (s : BTState) (r : Row) (hflat : s.posQty = 0)
    (hsig : breakoutSignal p r = true) (hq : 0 < entryQty s p r) :
    entryStep p s r =
      { s with
        posQty := entryQty s p r
        entryPx := r.close
        entryVal := entryQty s p r * r.close
        cap := s.cap - entryQty s p r * r.close * COMMISSION } := by
  unfold entryStep
  rw [if_pos ⟨hflat, hsig⟩]
  exact if_pos hq

/-- C6: whenever a position is open at a bar and
`change = close/entry_price - 1` satisfies `change >= tp` or
`change <= -sl`, the exit check closes the position: capital moves by
exactly `(close*qty - entry_value) - close*qty*commission`, the trade
count rises by one, a win is recorded iff `change >= tp` and a loss iff
`change <= -sl`, and the position is reset to flat. -/
theorem exit_check_semantics (p : Params) (s : BTState) (r : Row) (hpos : s.posQty ≠ 0)
    (hx : p.tp ≤ r.close / s.entryPx - 1 ∨ r.close / s.entryPx - 1 ≤ -p.sl) :
    (exitStep p s r).cap =
        s.cap + ((r.close * s.posQty - s.entryVal) - r.close * s.posQty * COMMISSION) ∧
    (exitStep p s r).posQty = 0 ∧
    (exitStep p s r).trades = s.trades + 1 ∧
    ((exitStep p s r).wins = s.wins + 1 ↔ p.tp ≤ r.close / s.entryPx - 1) ∧
    ((exitStep p s r).losses = s.losses + 1 ↔ r.close / s.entryPx - 1 ≤ -p.sl) := by
  rw [exitStep_fires p s r hpos hx]
  refine ⟨rfl, rfl, rfl, ?_, ?_⟩
  · by_cases h : p.tp ≤ r.close / s.entryPx - 1 <;> simp [h]
  · by_cases h : r.close / s.entryPx - 1 ≤ -p.sl <;> simp [h]

/-- C6 witness: the spec scenario — position entered at 100 with tp 2%
and sl 1%, next close 98: the exit fires and is classified as a loss and
not as a win. -/
theorem exit_check_semantics_witness :
    (exitStep scnP scnS scnR).cap =
        scnS.cap + ((scnR.close * scnS.posQty - scnS.entryVal) -
          scnR.close * scnS.posQty * COMMISSION) ∧
    (exitStep scnP scnS scnR).posQty = 0 ∧
    (exitStep scnP scnS scnR).trades = scnS.trades + 1 ∧
    ((exitStep scnP scnS scnR).wins = scnS.wins + 1 ↔
      scnP.tp ≤ scnR.close / scnS.entryPx - 1) ∧
    ((exitStep scnP scnS scnR).losses = scnS.losses + 1 ↔
      scnR.close / scnS.entryPx - 1 ≤ -scnP.sl) :=
  exit_check_semantics scnP scnS scnR (by decide) (Or.inr (by decide))

/-- C8: the simulator never opens a position of nonpositive quantity and
never opens while a position is held: the entry check either leaves the
state unchanged or opens a positive quantity from a flat state, an entry
whose computed quantity is not positive is skipped with the state
unchanged, and the exit check never opens a position. -/
theorem entry_invariants :
    (∀ (p : Params) (s : BTState) (r : Row),
      entryStep p s r = s ∨ (s.posQty = 0 ∧ 0 < (entryStep p s r).posQty)) ∧
    (∀ (p : Params) (s : BTState) (r : Row),
      entryQty s p r ≤ 0 → entryStep p s r = s) ∧
    (∀ (p : Params) (s : BTState) (r : Row),
      exitStep p s r = s ∨ (exitStep p s r).posQty = 0) := by
  refine ⟨fun p s r => ?_, fun p s r hq => ?_, fun p s r => ?_⟩
  · by_cases hc : s.posQty = 0 ∧ breakoutSignal p r = true
    · by_cases hq : 0 < entryQty s p r
      · refine Or.inr ⟨hc.1, ?_⟩
        rw [entryStep_fires p s r hc.1 hc.2 hq]
        exact hq
      · refine Or.inl ?_
        unfold entryStep
        rw [if_pos hc]
        exact if_neg hq
    · refine Or.inl ?_
      unfold entryStep
      exact if_neg hc
  · by_cases hc : s.posQty = 0 ∧ breakoutSignal p r = true
    · unfold entryStep
      rw [if_pos hc]
      exact if_neg (by omega)
    · unfold entryStep
      exact if_neg hc
  · by_cases h1 : s.posQty ≠ 0
    · by_cases h2 : p.tp ≤ r.close / s.entryPx - 1 ∨ r.close / s.entryPx - 1 ≤ -p.sl
      · refine Or.inr ?_
        rw [exitStep_fires p s r h1 h2]
      · refine Or.inl ?_
        unfold exitStep
        rw [if_pos h1]
        exact if_neg h2
    · refine Or.inl ?_
      unfold exitStep
      exact if_neg h1

/-- C8 witness: with capital 1 the computed quantity is 0 even though the
breakout signal fires, and the entry is skipped leaving the state
unchanged. -/
theorem entry_invariants_witness : entryStep rentP tinyS tinyR = tinyS :=
  entry_invariants.2.1 rentP tinyS tinyR (by decide)

/-- C3 amended: the exit check runs before the entry check on each bar,
but an exit at bar t does not defer re-entry to bar t+1: when, after the
exit, the breakout signal holds at bar t and the computed quantity is
positive, a new position is opened on bar t itself. -/
theorem exit_then_entry_same_bar (p : Params) (s : BTState) (r : Row)
    (hpos : s.posQty ≠ 0)
    (hx : p.tp ≤ r.close / s.entryPx - 1 ∨ r.close / s.entryPx - 1 ≤ -p.sl)
    (hsig : breakoutSignal p r = true)
    (hq : 0 < entryQty (exitStep p s r) p r) :
    step p s r = entryStep p (exitStep p s r) r ∧
    (step p s r).trades = s.trades + 1 ∧
    (step p s r).posQty = entryQty (exitStep p s r) p r ∧
    (step p s r).entryPx = r.close := by
  have hpos0 : (exitStep p s r).posQty = 0 := by rw [exitStep_fires p s r hpos hx]
  have htr : (exitStep p s r).trades = s.trades + 1 := by rw [exitStep_fires p s r hpos hx]
  have hen := entryStep_fires p (exitStep p s r) r hpos0 hsig hq
  refine ⟨rfl, ?_, ?_, ?_⟩
  · show (entryStep p (exitStep p s r) r).trades = s.trades + 1
    rw [hen]
    exact htr
  · show (entryStep p (exitStep p s r) r).posQty = entryQty (exitStep p s r) p r
    rw [hen]
  · show (entryStep p (exitStep p s r) r).entryPx = r.close
    rw [hen]

/-- C3 amended witness: a position entered at 100 with tp 2%, exit at
close 103 (take profit), immediately followed by a re-entry at the same
bar because the breakout signal holds there. -/
theorem exit_then_entry_same_bar_witness :
    step rentP rentS rentR = entryStep rentP (exitStep rentP rentS rentR) rentR ∧
    (step rentP rentS rentR).trades = rentS.trades + 1 ∧
    (step rentP rentS rentR).posQty = entryQty (exitStep rentP rentS rentR) rentP rentR ∧
    (step rentP rentS rentR).entryPx = rentR.close :=
  exit_then_entry_same_bar rentP rentS rentR (by decide) (Or.inl (by decide))
    (by decide) (by decide)

/-- Auxiliary: a missing breakout level makes the entry condition false. -/
lemma breakoutSignal_none {p : Params} {r : Row} (h : r.hiLvl = none) :
    breakoutSignal p r = false := by
  unfold breakoutSignal
  rw [h]

/-- Auxiliary: a flat state passes unchanged through a bar whose level
column is missing. -/
lemma step_flat_no_levels (p : Params) (s : BTState) (r : Row) (hpos : s.posQty = 0)
    (h : r.hiLvl = none) : step p s r = s := by
  unfold step
  have he : exitStep p s r = s := by
    unfold exitStep
    rw [if_neg (by simp [hpos])]
  rw [he]
  unfold entryStep
  rw [if_neg (by simp [breakoutSignal_none h])]

/-- Auxiliary: every row of a store shorter than the lookback has a
missing level column. -/
lemma mkRows_hiLvl_none {df : List Bar} {w : Nat} (h : df.length ≤ w) :
    ∀ r ∈ mkRows df w, r.hiLvl = none := by
  intro r hr
  unfold mkRows at hr
  obtain ⟨t, ht, rfl⟩ := List.mem_map.mp hr
  have ht2 : t < df.length := List.mem_range.mp ht
  show hiLvlAt df w t = none
  unfold hiLvlAt rollingMaxShift
  rw [if_neg (by omega)]

/-- Auxiliary: the replay of rows all missing their level column keeps
the initial state. -/
lemma foldl_flat (p : Params) (rows : List Row) (h : ∀ r ∈ rows, r.hiLvl = none) :
    rows.foldl (step p) initState = initState := by
  induction rows with
  | nil => rfl
  | cons r rest ih =>
    rw [List.foldl_cons, step_flat_no_levels p initState r rfl (h r (List.mem_cons_self r rest))]
    exact ih fun r2 h2 => h r2 (List.mem_cons_of_mem r h2)

/-- Auxiliary: a backtest over a store shorter than its lookback makes
no trades and returns 0%. -/
lemma backtest_short (df : List Bar) (p : Params) (h : df.length ≤ p.lookback) :
    backtest df p = ⟨0, 0, 0, 0⟩ := by
  unfold backtest backtestRun
  rw [foldl_flat p _ (mkRows_hiLvl_none h)]
  show (⟨(initState.cap / CAPITAL_START - 1) * 100, initState.trades, initState.wins,
    initState.losses⟩ : BTResult) = ⟨0, 0, 0, 0⟩
  have : (initState.cap / CAPITAL_START - 1) * 100 = 0 := by
    norm_num [initState, CAPITAL_START]
  rw [this]
  rfl

/-- Auxiliary: every grid cell has lookback at least 10. -/
lemma gridCombos_lookback : ∀ p ∈ gridCombos, 10 ≤ p.lookback := by decide

/-- Auxiliary: a cell scoring `⟨0,0,0,0⟩` cannot displace an incumbent
with nonnegative return. -/
lemma optFold_keep (df : List Bar) (l : List Params) (best : BestRec)
    (hb : ¬ best.ret < 0) (h : ∀ p ∈ l, backtest df p = ⟨0, 0, 0, 0⟩) :
    l.foldl (optStep df) best = best := by
  induction l with
  | nil => rfl
  | cons p rest ih =>
    rw [List.foldl_cons]
    have hstep : optStep df best p = best := by
      unfold optStep
      rw [h p (List.mem_cons_self p rest)]
      exact if_neg hb
    rw [hstep]
    exact ih fun q hq => h q (List.mem_cons_of_mem p hq)

/-- Auxiliary: a cell scoring `⟨0,0,0,0⟩` cannot displace an incumbent
pair with nonnegative return in `main`'s loop. -/
lemma bestFold_keep (score : Params → ℚ) (l : List Params) (bp : Params) (br : ℚ)
    (h : ∀ p ∈ l, ¬ br < score p) :
    l.foldl (bestStep score) (some (bp, br)) = some (bp, br) := by
  induction l with
  | nil => rfl
  | cons p rest ih =>
    rw [List.foldl_cons]
    have hstep : bestStep score (some (bp, br)) p = some (bp, br) := by
      unfold bestStep
      exact if_neg (h p (List.mem_cons_self p rest))
    rw [hstep]
    exact ih fun q hq => h q (List.mem_cons_of_mem p hq)

/-- Auxiliary: the head of the grid. -/
lemma gridCombos_head :
    gridCombos = (⟨10, 1 / 1000, 5 / 1000, 3 / 1000⟩ : Params) :: gridCombos.tail := by
  rfl

/-- Auxiliary: `optimize_params` on a store shorter than every lookback
retains the first grid cell with 0% return and zero trades. -/
lemma optimizeParams_short (df : List Bar) (h : df.length < 10) :
    optimizeParams df = ⟨0, 10, 1 / 1000, 5 / 1000, 3 / 1000, 0, 0, 0⟩ := by
  have hall : ∀ p ∈ gridCombos, backtest df p = ⟨0, 0, 0, 0⟩ := fun p hp =>
    backtest_short df p (le_trans (le_of_lt h) (gridCombos_lookback p hp))
  unfold optimizeParams
  rw [gridCombos_head, List.foldl_cons]
  have h0 : backtest df ⟨10, 1 / 1000, 5 / 1000, 3 / 1000⟩ = ⟨0, 0, 0, 0⟩ :=
    hall _ (by rw [gridCombos_head]; exact List.mem_cons_self _ _)
  have hstep : optStep df ⟨-(10 ^ 9 : ℚ), 0, 0, 0, 0, 0, 0, 0⟩ ⟨10, 1 / 1000, 5 / 1000, 3 / 1000⟩ =
      ⟨0, 10, 1 / 1000, 5 / 1000, 3 / 1000, 0, 0, 0⟩ := by
    unfold optStep
    rw [h0]
    exact if_pos (by norm_num)
  rw [hstep]
  exact optFold_keep df _ _ (by norm_num)
    fun p hp => hall p (by rw [gridCombos_head]; exact List.mem_cons_of_mem _ hp)

/-- Auxiliary: `main`'s grid loop on a store shorter than every lookback
selects the first grid cell with return 0. -/
lemma optimizeMain_short (df : List Bar) (h : df.length < 10) :
    optimizeMain df = some (⟨10, 1 / 1000, 5 / 1000, 3 / 1000⟩, 0) := by
  have hall : ∀ p ∈ gridCombos, backtest df p = ⟨0, 0, 0, 0⟩ := fun p hp =>
    backtest_short df p (le_trans (le_of_lt h) (gridCombos_lookback p hp))
  unfold optimizeMain selectBest
  rw [gridCombos_head, List.foldl_cons]
  have h0 : (backtest df ⟨10, 1 / 1000, 5 / 1000, 3 / 1000⟩).ret = 0 := by
    rw [hall _ (by rw [gridCombos_head]; exact List.mem_cons_self _ _)]
  have hstep : bestStep (fun p => (backtest df p).ret) none ⟨10, 1 / 1000, 5 / 1000, 3 / 1000⟩ =
      some (⟨10, 1 / 1000, 5 / 1000, 3 / 1000⟩, 0) := by
    simp only [bestStep]
    rw [h0]
  rw [hstep]
  refine bestFold_keep _ _ _ _ fun p hp => ?_
  rw [hall p (by rw [gridCombos_head]; exact List.mem_cons_of_mem _ hp)]
  norm_num

/-- C2 amended: the Grid Optimizer does not fail on a Bar Store with
fewer bars than the lookbacks in the grid; it returns an
OptimizationResult: with fewer bars than the smallest lookback (10),
every cell trades zero times and the first grid cell is retained with 0%
return, in both `optimize_params` and `main`'s grid loop. -/
theorem optimizer_total_on_short_store (df : List Bar) (h : df.length < 10) :
    optimizeParams df = ⟨0, 10, 1 / 1000, 5 / 1000, 3 / 1000, 0, 0, 0⟩ ∧
    optimizeMain df = some (⟨10, 1 / 1000, 5 / 1000, 3 / 1000⟩, 0) :=
  ⟨optimizeParams_short df h, optimizeMain_short df h⟩

/-- C2 amended witness: the five-bar store. -/
theorem optimizer_total_on_short_store_witness :
    optimizeParams c2df = ⟨0, 10, 1 / 1000, 5 / 1000, 3 / 1000, 0, 0, 0⟩ ∧
    optimizeMain c2df = some (⟨10, 1 / 1000, 5 / 1000, 3 / 1000⟩, 0) :=
  optimizer_total_on_short_store c2df (by decide)

/-- Auxiliary: the best-so-far fold keeps an incumbent until a strictly
greater score appears, and ends at the first cell attaining the overall
maximum. -/
lemma bestFold_spec (score : Params → ℚ) (l : List Params) :
    ∀ (b0 : Params) (r0 : ℚ), score b0 = r0 →
    ∃ bp br, l.foldl (bestStep score) (some (b0, r0)) = some (bp, br) ∧ score bp = br ∧
      (∀ q ∈ l, score q ≤ br) ∧ r0 ≤ br ∧
      ((bp = b0 ∧ br = r0) ∨
        ∃ i, ∃ hi : i < l.length, l.get ⟨i, hi⟩ = bp ∧ r0 < br ∧
          ∀ q ∈ l.take i, score q < br) := by
  induction l with
  | nil =>
    intro b0 r0 h0
    exact ⟨b0, r0, rfl, h0, by simp, le_refl r0, Or.inl ⟨rfl, rfl⟩⟩
  | cons y ys ih =>
    intro b0 r0 h0
    rw [List.foldl_cons]
    by_cases hy : r0 < score y
    · have hstep : bestStep score (some (b0, r0)) y = some (y, score y) := by
        unfold bestStep
        exact if_pos hy
      rw [hstep]
      obtain ⟨bp, br, heq, hsc, hub, hle, hdisj⟩ := ih y (score y) rfl
      refine ⟨bp, br, heq, hsc, ?_, le_of_lt (lt_of_lt_of_le hy hle), ?_⟩
      · intro q hq
        rcases List.mem_cons.mp hq with h | h
        · rw [h]; exact hle
        · exact hub q h
      · rcases hdisj with ⟨hbp, hbr⟩ | ⟨i, hi, hget, hlt, htk⟩
        · refine Or.inr ⟨0, Nat.succ_pos _, ?_, ?_, by simp⟩
          · rw [hbp]; rfl
          · rw [hbr]; exact hy
        · refine Or.inr ⟨i + 1, Nat.succ_lt_succ hi, by simpa using hget,
            lt_trans hy hlt, ?_⟩
          intro q hq
          rw [List.take_succ_cons] at hq
          rcases List.mem_cons.mp hq with h | h
          · rw [h]; exact hlt
          · exact htk q h
    · have hstep : bestStep score (some (b0, r0)) y = some (b0, r0) := by
        unfold bestStep
        exact if_neg hy
      rw [hstep]
      obtain ⟨bp, br, heq, hsc, hub, hle, hdisj⟩ := ih b0 r0 h0
      refine ⟨bp, br, heq, hsc, ?_, hle, ?_⟩
      · intro q hq
        rcases List.mem_cons.mp hq with h | h
        · rw [h]; exact le_trans (le_of_not_lt hy) hle
        · exact hub q h
      · rcases hdisj with h | ⟨i, hi, hget, hlt, htk⟩
        · exact Or.inl h
        · refine Or.inr ⟨i + 1, Nat.succ_lt_succ hi, by simpa using hget, hlt, ?_⟩
          intro q hq
          rw [List.take_succ_cons] at hq
          rcases List.mem_cons.mp hq with h | h
          · rw [h]; exact lt_of_le_of_lt (le_of_not_lt hy) hlt
          · exact htk q h

/-- Auxiliary: `main`'s selection over a nonempty cell list returns the
first cell attaining the maximal score. -/
lemma selectBest_spec (score : Params → ℚ) (l : List Params) (hl : l ≠ []) :
    ∃ bp br, selectBest score l = some (bp, br) ∧ score bp = br ∧
      (∃ i, ∃ hi : i < l.length, l.get ⟨i, hi⟩ = bp ∧
        ∀ q ∈ l.take i, score q < br) ∧
      (∀ q ∈ l, score q ≤ br) := by
  cases l with
  | nil => exact absurd rfl hl
  | cons hd tl =>
    unfold selectBest
    rw [List.foldl_cons]
    have h1 : bestStep score none hd = some (hd, score hd) := rfl
    rw [h1]
    obtain ⟨bp, br, heq, hsc, hub, hle, hdisj⟩ := bestFold_spec score tl hd (score hd) rfl
    refine ⟨bp, br, heq, hsc, ?_, ?_⟩
    · rcases hdisj with ⟨hbp, hbr⟩ | ⟨i, hi, hget, hlt, htk⟩
      · refine ⟨0, Nat.succ_pos _, ?_, by simp⟩
        rw [hbp]; rfl
      · refine ⟨i + 1, Nat.succ_lt_succ hi, by simpa using hget, ?_⟩
        intro q hq
        rw [List.take_succ_cons] at hq
        rcases List.mem_cons.mp hq with h | h
        · rw [h]; exact hlt
        · exact htk q h
    · intro q hq
      rcases List.mem_cons.mp hq with h | h
      · rw [h]; exact hle
      · exact hub q h

/-- Auxiliary: an update of `optimize_params` that displaces the
incumbent installs the cell's record. -/
lemma optStep_pos (df : List Bar) (b : BestRec) (p : Params)
    (h : b.ret < (backtest df p).ret) : optStep df b p = cellRec df p := by
  unfold optStep cellRec
  exact if_pos h

/-- Auxiliary: an update of `optimize_params` that does not displace the
incumbent keeps it. -/
lemma optStep_neg (df : List Bar) (b : BestRec) (p : Params)
    (h : ¬ b.ret < (backtest df p).ret) : optStep df b p = b := by
  unfold optStep
  exact if_neg h

/-- Auxiliary: the `optimize_params` fold keeps its incumbent until a
strictly greater return appears, and ends either at the incumbent or at
the record of the first cell attaining the overall maximum. -/
lemma optFold_spec (df : List Bar) (l : List Params) :
    ∀ b : BestRec,
    ∃ res, l.foldl (optStep df) b = res ∧
      (∀ q ∈ l, (backtest df q).ret ≤ res.ret) ∧ b.ret ≤ res.ret ∧
      (res = b ∨
        ∃ i, ∃ hi : i < l.length, res = cellRec df (l.get ⟨i, hi⟩) ∧ b.ret < res.ret ∧
          ∀ q ∈ l.take i, (backtest df q).ret < res.ret) := by
  induction l with
  | nil =>
    intro b
    exact ⟨b, rfl, by simp, le_refl _, Or.inl rfl⟩
  | cons y ys ih =>
    intro b
    rw [List.foldl_cons]
    by_cases hy : b.ret < (backtest df y).ret
    · rw [optStep_pos df b y hy]
      obtain ⟨res, heq, hub, hle, hdisj⟩ := ih (cellRec df y)
      have hcr : (cellRec df y).ret = (backtest df y).ret := rfl
      rw [hcr] at hle
      refine ⟨res, heq, ?_, le_of_lt (lt_of_lt_of_le hy hle), ?_⟩
      · intro q hq
        rcases List.mem_cons.mp hq with h | h
        · rw [h]; exact hle
        · exact hub q h
      · rcases hdisj with h | ⟨i, hi, hres, hlt, htk⟩
        · refine Or.inr ⟨0, Nat.succ_pos _, ?_, ?_, by simp⟩
          · rw [h]; rfl
          · rw [h, hcr]; exact hy
        · rw [hcr] at hlt
          refine Or.inr ⟨i + 1, Nat.succ_lt_succ hi, by simpa using hres,
            lt_trans hy hlt, ?_⟩
          intro q hq
          rw [List.take_succ_cons] at hq
          rcases List.mem_cons.mp hq with h | h
          · rw [h]; exact hlt
          · exact htk q h
    · rw [optStep_neg df b y hy]
      obtain ⟨res, heq, hub, hle, hdisj⟩ := ih b
      refine ⟨res, heq, ?_, hle, ?_⟩
      · intro q hq
        rcases List.mem_cons.mp hq with h | h
        · rw [h]; exact le_trans (le_of_not_lt hy) hle
        · exact hub q h
      · rcases hdisj with h | ⟨i, hi, hres, hlt, htk⟩
        · exact Or.inl h
        · refine Or.inr ⟨i + 1, Nat.succ_lt_succ hi, by simpa using hres, hlt, ?_⟩
          intro q hq
          rw [List.take_succ_cons] at hq
          rcases List.mem_cons.mp hq with h | h
          · rw [h]; exact lt_of_le_of_lt (le_of_not_lt hy) hlt
          · exact htk q h

/-- C9: the Backtest Simulator and both Grid Optimizers are
deterministic (pure functions of the store, parameter set and grid — the
only use of randomness in the source is inside the fetchers), and when
several grid cells attain the maximal return the cell retained is the
first one reached in the grid's iteration order (lookback, then delta,
then tp, then sl): in `main`'s loop the selected cell attains the
maximum and every earlier cell scores strictly below it; in
`optimize_params` the `-1e9` sentinel survives when every cell's return
is at most `-1e9`, and otherwise the retained record is that of the
first cell attaining the maximum, every earlier cell scoring strictly
below it. -/
theorem optimizer_deterministic_first_argmax (df : List Bar) :
    (∀ p, backtest df p = backtest df p) ∧
    optimizeMain df = optimizeMain df ∧
    optimizeParams df = optimizeParams df ∧
    (∃ bp br, optimizeMain df = some (bp, br) ∧ (backtest df bp).ret = br ∧
      (∃ i, ∃ hi : i < gridCombos.length, gridCombos.get ⟨i, hi⟩ = bp ∧
        ∀ q ∈ gridCombos.take i, (backtest df q).ret < br) ∧
      (∀ q ∈ gridCombos, (backtest df q).ret ≤ br)) ∧
    ((∀ q ∈ gridCombos, (backtest df q).ret ≤ -(10 ^ 9 : ℚ)) →
      optimizeParams df = ⟨-(10 ^ 9 : ℚ), 0, 0, 0, 0, 0, 0, 0⟩) ∧
    (∀ p0 ∈ gridCombos, -(10 ^ 9 : ℚ) < (backtest df p0).ret →
      ∃ i, ∃ hi : i < gridCombos.length,
        optimizeParams df = cellRec df (gridCombos.get ⟨i, hi⟩) ∧
        (∀ q ∈ gridCombos.take i, (backtest df q).ret < (optimizeParams df).ret) ∧
        (∀ q ∈ gridCombos, (backtest df q).ret ≤ (optimizeParams df).ret)) := by
  refine ⟨fun p => rfl, rfl, rfl, ?_, ?_, ?_⟩
  · obtain ⟨bp, br, heq, hsc, hidx, hub⟩ :=
      selectBest_spec (fun p => (backtest df p).ret) gridCombos (by decide)
    exact ⟨bp, br, heq, hsc, hidx, hub⟩
  · intro hall
    obtain ⟨res, heq, hub, hle, hdisj⟩ :=
      optFold_spec df gridCombos ⟨-(10 ^ 9 : ℚ), 0, 0, 0, 0, 0, 0, 0⟩
    have hopt : optimizeParams df = res := heq
    rcases hdisj with h | ⟨i, hi, hres, hlt, htk⟩
    · rw [hopt, h]
    · exfalso
      have hmem : gridCombos.get ⟨i, hi⟩ ∈ gridCombos := List.get_mem _ _ _
      have h1 : res.ret ≤ -(10 ^ 9 : ℚ) := by rw [hres]; exact hall _ hmem
      exact absurd h1 (not_le.mpr hlt)
  · intro p0 hp0 hgt
    obtain ⟨res, heq, hub, hle, hdisj⟩ :=
      optFold_spec df gridCombos ⟨-(10 ^ 9 : ℚ), 0, 0, 0, 0, 0, 0, 0⟩
    have hopt : optimizeParams df = res := heq
    rcases hdisj with h | ⟨i, hi, hres, hlt, htk⟩
    · exfalso
      have hb := hub p0 hp0
      rw [h] at hb
      exact absurd hb (not_le.mpr hgt)
    · refine ⟨i, hi, ?_, ?_, ?_⟩
      · rw [hopt, hres]
      · intro q hq; rw [hopt]; exact htk q hq
      · intro q hq; rw [hopt]; exact hub q hq

/-- C9 witness: on the five-bar store every cell returns 0, which is
above the sentinel, so `optimize_params` retains the record of the first
cell attaining the maximum, every earlier cell (there is none) scoring
strictly below it. -/
theorem optimizer_deterministic_first_argmax_witness :
    ∃ i, ∃ hi : i < gridCombos.length,
      optimizeParams c2df = cellRec c2df (gridCombos.get ⟨i, hi⟩) ∧
      (∀ q ∈ gridCombos.take i, (backtest c2df q).ret < (optimizeParams c2df).ret) ∧
      (∀ q ∈ gridCombos, (backtest c2df q).ret ≤ (optimizeParams c2df).ret) :=
  (optimizer_deterministic_first_argmax c2df).2.2.2.2.2
    ⟨10, 1 / 1000, 5 / 1000, 3 / 1000⟩ (by decide) (by decide)

/-- Auxiliary: counting transients through a cons. -/
lemma countU_cons (x : FetchFail × ℚ) (l : List (FetchFail × ℚ)) :
    countU (x :: l) = countU l + (if isUnavail x.1 then 1 else 0) := by
  simp [countU, List.countP_cons]

/-- Auxiliary: counting transients through a transient cons. -/
lemma countU_cons_unavail (r : ℚ) (l : List (FetchFail × ℚ)) :
    countU ((FetchFail.unavailable, r) :: l) = countU l + 1 := by
  rw [countU_cons]
  rfl

/-- Auxiliary: recording a sleep does not change whether a call raised. -/
lemma isErr_consSleep (s : ℚ) (o : FetchOutcome) : (consSleep s o).isErr = o.isErr := by
  cases o <;> rfl

/-- Auxiliary: a throttled failure is not the immediately-fatal class. -/
lemma throttled_not_fatal {f : FetchFail} (h : isThrottled f = true) : isFatal f = false := by
  cases f <;> simp [isThrottled, isFatal] at h ⊢

/-- Auxiliary: a throttled failure is not the transient class. -/
lemma throttled_not_unavail {f : FetchFail} (h : isThrottled f = true) :
    isUnavail f = false := by
  cases f <;> simp [isThrottled, isUnavail] at h ⊢

/-- Auxiliary: a fetch call surfaces an error iff its attempts reach an
other-class failure with at most `left` transients before it, or contain
more than `left` transient failures. -/
lemma runFetch_isErr (tS : ℤ → Bool → ℚ) (uS : ℚ → ℚ → ℚ) :
    ∀ (fails : List (FetchFail × ℚ)) (backoff : ℚ) (left : Nat),
    ((runFetch tS uS backoff left fails).isErr = true ↔
      ((∃ pre x post, fails = pre ++ x :: post ∧ isFatal x.1 = true ∧ countU pre ≤ left) ∨
        left < countU fails)) := by
  intro fails
  induction fails with
  | nil =>
    intro backoff left
    constructor
    · intro h
      simp [runFetch, FetchOutcome.isErr] at h
    · rintro (⟨pre, x, post, hsplit, _, _⟩ | hcnt)
      · have h2 := congrArg List.length hsplit
        simp at h2
        omega
      · simp [countU] at hcnt
  | cons a rest ih =>
    intro backoff left
    obtain ⟨f, r⟩ := a
    cases f with
    | throttled w m =>
      rw [show runFetch tS uS backoff left ((FetchFail.throttled w m, r) :: rest) =
          consSleep (tS w m) (runFetch tS uS backoff left rest) from rfl,
        isErr_consSleep, ih backoff left]
      constructor
      · rintro (⟨pre, x, post, hsplit, hfat, hcnt⟩ | hcnt)
        · refine Or.inl ⟨(FetchFail.throttled w m, r) :: pre, x, post,
            by rw [hsplit]; rfl, hfat, ?_⟩
          rw [countU_cons]
          simpa [isUnavail] using hcnt
        · refine Or.inr ?_
          rw [countU_cons]
          simpa [isUnavail] using hcnt
      · rintro (⟨pre, x, post, hsplit, hfat, hcnt⟩ | hcnt)
        · cases pre with
          | nil =>
            simp only [List.nil_append, List.cons.injEq] at hsplit
            rw [← hsplit.1] at hfat
            simp [isFatal] at hfat
          | cons z pre2 =>
            simp only [List.cons_append, List.cons.injEq] at hsplit
            refine Or.inl ⟨pre2, x, post, hsplit.2, hfat, ?_⟩
            rw [← hsplit.1, countU_cons] at hcnt
            simpa [isUnavail] using hcnt
        · refine Or.inr ?_
          rw [countU_cons] at hcnt
          simpa [isUnavail] using hcnt
    | unavailable =>
      cases left with
      | zero =>
        rw [show runFetch tS uS backoff 0 ((FetchFail.unavailable, r) :: rest) =
          FetchOutcome.raised [] FetchFail.unavailable from rfl]
        refine iff_of_true rfl (Or.inr ?_)
        rw [countU_cons]
        simp [isUnavail]
      | succ k =>
        rw [show runFetch tS uS backoff (k + 1) ((FetchFail.unavailable, r) :: rest) =
            consSleep (uS backoff r) (runFetch tS uS (backoff * 2) k rest) from rfl,
          isErr_consSleep, ih (backoff * 2) k]
        constructor
        · rintro (⟨pre, x, post, hsplit, hfat, hcnt⟩ | hcnt)
          · refine Or.inl ⟨(FetchFail.unavailable, r) :: pre, x, post,
              by rw [hsplit]; rfl, hfat, ?_⟩
            rw [countU_cons_unavail]
            omega
          · refine Or.inr ?_
            rw [countU_cons_unavail]
            omega
        · rintro (⟨pre, x, post, hsplit, hfat, hcnt⟩ | hcnt)
          · cases pre with
            | nil =>
              simp only [List.nil_append, List.cons.injEq] at hsplit
              rw [← hsplit.1] at hfat
              simp [isFatal] at hfat
            | cons z pre2 =>
              simp only [List.cons_append, List.cons.injEq] at hsplit
              refine Or.inl ⟨pre2, x, post, hsplit.2, hfat, ?_⟩
              rw [← hsplit.1, countU_cons_unavail] at hcnt
              omega
          · refine Or.inr ?_
            rw [countU_cons_unavail] at hcnt
            omega
    | fatal =>
      rw [show runFetch tS uS backoff left ((FetchFail.fatal, r) :: rest) =
        FetchOutcome.raised [] FetchFail.fatal from rfl]
      refine iff_of_true rfl (Or.inl ⟨[], (FetchFail.fatal, r), rest, rfl, rfl, ?_⟩)
      simp [countU]

/-- Auxiliary: a call whose failures are all throttled never raises,
however many there are. -/
lemma runFetch_throttled_ok (tS : ℤ → Bool → ℚ) (uS : ℚ → ℚ → ℚ)
    (fails : List (FetchFail × ℚ)) (backoff : ℚ) (left : Nat)
    (h : ∀ x ∈ fails, isThrottled x.1 = true) :
    (runFetch tS uS backoff left fails).isErr = false := by
  cases he : (runFetch tS uS backoff left fails).isErr
  · rfl
  · exfalso
    rcases (runFetch_isErr tS uS fails backoff left).mp he with
      ⟨pre, x, post, hsplit, hfat, _⟩ | hcnt
    · have hx : x ∈ fails := by
        rw [hsplit]
        exact List.mem_append_right pre (List.mem_cons_self x post)
      rw [throttled_not_fatal (h x hx)] at hfat
      exact Bool.noConfusion hfat
    · have hz : countU fails = 0 := by
        unfold countU
        refine List.countP_eq_zero.mpr fun a ha => ?_
        simp [throttled_not_unavail (h a ha)]
      omega

/-- C5 amended: a fetch call surfaces an error iff either the transient
retry budget of 5 is exceeded (the 6th transient failure of the call is
raised — counting every transient of the call) or an other-class failure
is reached (raised immediately, at most 5 transients having preceded
it); a throttled failure is never surfaced and consumes none of the
retry budget however often it repeats: the bulk fetcher sleeps
`max(wait, 1) + 1` and the incremental fetcher `wait + 1` (defaulting
the wait to 1 when the metadata is absent) and both retry with no cap. -/
theorem fetch_error_surfacing :
    (∀ fails, (btFetch 1 5 fails).isErr = true ↔
      ((∃ pre x post, fails = pre ++ x :: post ∧ isFatal x.1 = true ∧ countU pre ≤ 5) ∨
        5 < countU fails)) ∧
    (∀ fails, (botFetch 1 5 fails).isErr = true ↔
      ((∃ pre x post, fails = pre ++ x :: post ∧ isFatal x.1 = true ∧ countU pre ≤ 5) ∨
        5 < countU fails)) ∧
    (∀ fails, (∀ x ∈ fails, isThrottled x.1 = true) →
      (btFetch 1 5 fails).isErr = false ∧ (botFetch 1 5 fails).isErr = false) ∧
    (∀ (w : ℤ) (m : Bool) (r : ℚ) (rest : List (FetchFail × ℚ)) (backoff : ℚ) (left : Nat),
      btFetch backoff left ((FetchFail.throttled w m, r) :: rest) =
        consSleep ((max w 1 + 1 : ℤ) : ℚ) (btFetch backoff left rest) ∧
      botFetch backoff left ((FetchFail.throttled w m, r) :: rest) =
        consSleep (((if m then w else 1) + 1 : ℤ) : ℚ) (botFetch backoff left rest)) :=
  ⟨fun fails => runFetch_isErr btThrottleSleep btUnavailSleep fails 1 5,
    fun fails => runFetch_isErr botThrottleSleep botUnavailSleep fails 1 5,
    fun fails h => ⟨runFetch_throttled_ok btThrottleSleep btUnavailSleep fails 1 5 h,
      runFetch_throttled_ok botThrottleSleep botUnavailSleep fails 1 5 h⟩,
    fun _ _ _ _ _ _ => ⟨rfl, rfl⟩⟩

/-- C5 witness: a single throttled failure requesting a 5-unit wait is
absorbed by both fetchers with no error surfaced to the caller. -/
theorem fetch_error_surfacing_witness :
    (btFetch 1 5 [(FetchFail.throttled 5 true, 0)]).isErr = false ∧
    (botFetch 1 5 [(FetchFail.throttled 5 true, 0)]).isErr = false :=
  fetch_error_surfacing.2.2.1 [(FetchFail.throttled 5 true, 0)] (by decide)

end Ecopark
